import Mathlib

/-!
Shallow embedding of the filtering and recommendation engine of
`src/app.py` (Smart-electronic-appliances-suggestion).

Products are JSON records; the fields the engine reads are `id`, `name`,
`category`, `brand`, `price` and `description` (`rating` and `image` are
display-only data never consulted by the filter or recommendation logic,
so they are omitted here).  Python string equality and membership are
value equality; Python `s.lower()` is modelled characterwise; the float
constants `0.8` and `1.2` of `get_recommendations` are modelled as the
exact rationals `4/5` and `6/5`.
-/

structure Product where
  id : Int
  name : String
  category : String
  brand : String
  price : Int
  description : String
deriving DecidableEq, Repr

/-- Characterwise lower-casing, modelling Python `str.lower()` on the
ASCII data appearing in the catalog. -/
def lowerStr (s : String) : String :=
  String.mk (s.data.map Char.toLower)

/-- `leadMatch needle hay` holds when `needle` is an initial segment of
`hay`. Helper for the substring test. -/
def leadMatch : List Char → List Char → Bool
  | [], _ => true
  | _ :: _, [] => false
  | a :: as, b :: bs => decide (a = b) && leadMatch as bs

/-- `subtext needle hay` holds when `needle` occurs contiguously inside
`hay`: Python `needle in hay` on strings. -/
def subtext : List Char → List Char → Bool
  | needle, [] => leadMatch needle []
  | needle, c :: t => leadMatch needle (c :: t) || subtext needle t

/-- Python `needle in hay` on strings. -/
def strIn (needle hay : String) : Bool :=
  subtext needle.data hay.data

/-- Lines 54-61 of `app.py`: when `search_query` is non-empty (Python
truthiness), keep the products whose lower-cased `name`, `brand` or
`description` contains the lower-cased query. -/
def searchStage (search_query : String) (ps : List Product) : List Product :=
  if search_query = "" then ps
  else
    let sq := lowerStr search_query
    ps.filter (fun p =>
      strIn sq (lowerStr p.name)
      || strIn sq (lowerStr p.brand)
      || strIn sq (lowerStr p.description))

/-- Lines 63-65 of `app.py`: when `category` is non-empty, keep the
products whose `category` equals it (Python `==`, case-sensitive). -/
def categoryStage (category : String) (ps : List Product) : List Product :=
  if category = "" then ps
  else ps.filter (fun p => decide (p.category = category))

/-- Lines 67-71 of `app.py`: keep the products with
`min_price <= price <= max_price`; this stage is unconditional. -/
def priceStage (min_price max_price : Int) (ps : List Product) : List Product :=
  ps.filter (fun p => decide (min_price ≤ p.price ∧ p.price ≤ max_price))

/-- `filter_products` of `app.py` (lines 38-73): the three stages run in
sequence over the list.  The Python defaults are `search_query=''`,
`category=''`, `min_price=0`, `max_price=999999`; callers passing no
criteria use exactly those values. -/
def filter_products (products : List Product) (search_query category : String)
    (min_price max_price : Int) : List Product :=
  priceStage min_price max_price (categoryStage category (searchStage search_query products))

/-- `get_recommendations` of `app.py` (lines 75-118).  `limit` is a count
(the app always passes 4).  Python `p not in same_category` is value
membership, modelled by decidable list membership. -/
def get_recommendations (product_id : Int) (products : List Product)
    (limit : Nat) : List Product :=
  match products.find? (fun p => decide (p.id = product_id)) with
  | none => []
  | some current_product =>
    let same_category := products.filter (fun p =>
      decide (p.category = current_product.category) && !decide (p.id = product_id))
    if limit ≤ same_category.length then
      same_category.take limit
    else
      let price : ℚ := (current_product.price : ℚ)
      let price_min := price * (4 / 5)
      let price_max := price * (6 / 5)
      let similar_price := products.filter (fun p =>
        decide (price_min ≤ (p.price : ℚ) ∧ (p.price : ℚ) ≤ price_max)
        && !decide (p.id = product_id)
        && !decide (p ∈ same_category))
      (same_category ++ similar_price).take limit

/-- Python `max(xs, default=d)`: `d` only when the list is empty,
otherwise the true maximum of the elements. -/
def pythonMax (dflt : Int) : List Int → Int
  | [] => dflt
  | x :: xs => xs.foldl max x

/-- Line 256 of `app.py`: the id given to a newly created product,
`max([p['id'] for p in products], default=0) + 1`. -/
def newProductId (products : List Product) : Int :=
  pythonMax 0 (products.map Product.id) + 1

/-- The category names the application knows (line 130 of `app.py`). -/
def categories : List String :=
  ["mobiles", "laptops", "earphones", "tvs"]

/-- The states the persisted data file can be in, as far as
`load_products` (lines 18-28) can distinguish them: `missing` makes
`open` raise `FileNotFoundError`; `unreadable` makes `open` raise
`PermissionError` (an `OSError`); `badJson` makes `json.load` raise
`JSONDecodeError`; `valid ps` parses as the product list `ps`. -/
inductive FileState where
  | missing
  | unreadable
  | badJson
  | valid (ps : List Product)
deriving DecidableEq, Repr

/-- `load_products` of `app.py` (lines 18-28): the `except` clause names
exactly `FileNotFoundError` and `json.JSONDecodeError`, so those two
cases yield `[]` while a `PermissionError` propagates out of the
function, modelled as an `Except.error`. -/
def load_products : FileState → Except String (List Product)
  | .missing => .ok []
  | .unreadable => .error "PermissionError"
  | .badJson => .ok []
  | .valid ps => .ok ps

/-- A single filter criterion, as in §4.1 and §8 of the spec: a free-text
query, a category, or a price bound. -/
inductive Crit where
  | query (s : String)
  | cat (c : String)
  | price (lo hi : Int)
deriving DecidableEq, Repr

/-- Applying one criterion alone: the other arguments of
`filter_products` take their Python defaults. -/
def applyCrit : Crit → List Product → List Product
  | .query s, ps => filter_products ps s "" 0 999999
  | .cat c, ps => filter_products ps "" c 0 999999
  | .price lo hi, ps => filter_products ps "" "" lo hi

/-- Combining two criteria into the argument tuple of a single
`filter_products` call, when the pair fits in one call: `none` for the
pairs (two text queries, two categories) that do not. Two price bounds
combine to the intersection of the intervals. -/
def combine : Crit → Crit → Option (String × String × Int × Int)
  | .query s, .cat c => some (s, c, 0, 999999)
  | .cat c, .query s => some (s, c, 0, 999999)
  | .query s, .price lo hi => some (s, "", lo, hi)
  | .price lo hi, .query s => some (s, "", lo, hi)
  | .cat c, .price lo hi => some ("", c, lo, hi)
  | .price lo hi, .cat c => some ("", c, lo, hi)
  | .price lo hi, .price lo₂ hi₂ => some ("", "", max lo lo₂, min hi hi₂)
  | _, _ => none

/-- One `filter_products` call on a combined argument tuple. -/
def applyCombined (args : String × String × Int × Int) (ps : List Product) : List Product :=
  filter_products ps args.1 args.2.1 args.2.2.1 args.2.2.2

/-- Case-insensitive substring containment, the relation the spec's
`text_query` description is phrased in. -/
def containsCI (needle hay : String) : Bool :=
  strIn (lowerStr needle) (lowerStr hay)

/-- The text-query stage's predicate on one product, including the
Python truthiness guard: an empty query accepts everything. -/
def passQuery (q : String) (p : Product) : Bool :=
  decide (q = "")
  || (strIn (lowerStr q) (lowerStr p.name)
      || strIn (lowerStr q) (lowerStr p.brand)
      || strIn (lowerStr q) (lowerStr p.description))

/-- The category stage's predicate on one product: an empty criterion
accepts everything. -/
def passCat (c : String) (p : Product) : Bool :=
  decide (c = "") || decide (p.category = c)

/-- The price stage's predicate on one product. -/
def passPrice (lo hi : Int) (p : Product) : Bool :=
  decide (lo ≤ p.price ∧ p.price ≤ hi)

/-- A mobile of the catalog shape, for concrete evaluations. -/
def prodMobileA : Product := ⟨1, "Galaxy S21", "mobiles", "Samsung", 15000, "flagship phone"⟩

/-- A second mobile sharing `prodMobileA`'s category. -/
def prodMobileB : Product := ⟨2, "Pixel 6", "mobiles", "Google", 18000, ""⟩

/-- A laptop whose name, brand and description do not contain the word
"laptops". -/
def prodLaptop : Product := ⟨3, "ThinkPad", "laptops", "Lenovo", 60000, ""⟩

/-- A product priced above the 999999 sentinel default of `max_price`. -/
def prodHighPrice : Product := ⟨4, "Big TV", "tvs", "LG", 1000000, ""⟩

/-- A product whose category differs from "mobiles" only in case. -/
def prodUpperMobile : Product := ⟨5, "Galaxy A52", "Mobiles", "Samsung", 20000, ""⟩

/-- A product whose name contains "laptop" as a substring. -/
def prodGamingLaptop : Product := ⟨6, "Gaming Laptop", "laptops", "Asus", 80000, ""⟩

/-- A product matched by the text query "alpha" but priced above the
999999 default bound. -/
def prodAlphaTV : Product := ⟨8, "alpha projector", "tvs", "beta", 1000000, ""⟩

/-- The recommendation algorithm exactly as §4.2 of the spec words it
(steps 1-5): locate the target by id, else empty; collect the other
products of the target's category in order; if at least `limit` of them,
the first `limit`; otherwise append the products whose price lies in the
inclusive band `[price*0.8, price*1.2]` that are neither the target nor
already selected, and truncate to `limit`.  Stated independently so that
`get_recommendations` can be compared against it. -/
def recommendSpec (target_id : Int) (products : List Product)
    (limit : Nat) : List Product :=
  match products.find? (fun p => decide (p.id = target_id)) with
  | none => []
  | some target =>
    let siblings := products.filter (fun p =>
      decide (p.category = target.category ∧ p.id ≠ target_id))
    if limit ≤ siblings.length then
      siblings.take limit
    else
      let low : ℚ := (target.price : ℚ) * (4 / 5)
      let high : ℚ := (target.price : ℚ) * (6 / 5)
      let band := products.filter (fun p =>
        decide (low ≤ (p.price : ℚ) ∧ (p.price : ℚ) ≤ high
          ∧ p.id ≠ target_id ∧ p ∉ siblings))
      (siblings ++ band).take limit

/-! ## Structural lemmas about the filter pipeline -/

theorem searchStage_eq_filter (q : String) (ps : List Product) :
    searchStage q ps = ps.filter (passQuery q) := by
  by_cases h : q = ""
  · subst h
    have he : searchStage "" ps = ps := by simp [searchStage]
    rw [he, Eq.comm, List.filter_eq_self]
    intro p _
    simp [passQuery]
  · rw [searchStage, if_neg h]
    apply List.filter_congr
    intro x _
    simp [passQuery, h]

theorem categoryStage_eq_filter (c : String) (ps : List Product) :
    categoryStage c ps = ps.filter (passCat c) := by
  by_cases h : c = ""
  · subst h
    have he : categoryStage "" ps = ps := by simp [categoryStage]
    rw [he, Eq.comm, List.filter_eq_self]
    intro p _
    simp [passCat]
  · rw [categoryStage, if_neg h]
    apply List.filter_congr
    intro x _
    simp [passCat, h]

theorem priceStage_eq_filter (lo hi : Int) (ps : List Product) :
    priceStage lo hi ps = ps.filter (passPrice lo hi) := rfl

theorem filter_products_eq_filter (ps : List Product) (q c : String) (lo hi : Int) :
    filter_products ps q c lo hi
      = ps.filter (fun p => passQuery q p && passCat c p && passPrice lo hi p) := by
  rw [filter_products, searchStage_eq_filter, categoryStage_eq_filter,
    priceStage_eq_filter, List.filter_filter, List.filter_filter]
  apply List.filter_congr
  intro x _
  cases passQuery q x <;> cases passCat c x <;> cases passPrice lo hi x <;> rfl

theorem filter_products_seq (ps : List Product) (q₁ c₁ : String) (lo₁ hi₁ : Int)
    (q₂ c₂ : String) (lo₂ hi₂ : Int) :
    filter_products (filter_products ps q₁ c₁ lo₁ hi₁) q₂ c₂ lo₂ hi₂
      = ps.filter (fun p =>
          (passQuery q₁ p && passCat c₁ p && passPrice lo₁ hi₁ p)
          && (passQuery q₂ p && passCat c₂ p && passPrice lo₂ hi₂ p)) := by
  rw [filter_products_eq_filter, filter_products_eq_filter, List.filter_filter]
  apply List.filter_congr
  intro x _
  cases passQuery q₁ x <;> cases passCat c₁ x <;> cases passPrice lo₁ hi₁ x <;>
    cases passQuery q₂ x <;> cases passCat c₂ x <;> cases passPrice lo₂ hi₂ x <;> rfl

/-! ## Claim theorems -/

/-- C1, counterexample: "laptops" is a known category name and
`prodLaptop` has exactly that category, yet `filter_products` with the
text query "laptops" rejects it — the code never treats a query equal to
a category name as a category filter and never searches the `category`
field, so the claimed selection `[prodLaptop]` is not what the code
returns. -/
theorem c1_counterexample :
    "laptops" ∈ categories ∧ prodLaptop.category = "laptops"
      ∧ filter_products [prodLaptop] "laptops" "" 0 999999 = [] := by
  decide

/-- C1, amended: for a non-empty text query the search stage selects
exactly the products whose `name`, `brand` or `description` contains the
query case-insensitively as a substring; the `category` field is not
searched and a query equal to a category name gets no special
treatment. -/
theorem c1_text_criterion_amended (q : String) (ps : List Product) (p : Product)
    (hq : q ≠ "") :
    p ∈ searchStage q ps
      ↔ p ∈ ps ∧ (containsCI q p.name = true ∨ containsCI q p.brand = true
          ∨ containsCI q p.description = true) := by
  simp [searchStage, hq, containsCI, List.mem_filter, or_assoc]

/-- Witness for `c1_text_criterion_amended` at a concrete input. -/
theorem c1_amended_witness : prodGamingLaptop ∈ searchStage "laptop" [prodGamingLaptop] :=
  (c1_text_criterion_amended "laptop" [prodGamingLaptop] prodGamingLaptop
    (by decide)).mpr (by decide)

/-- C2, counterexample: `prodUpperMobile` has category "Mobiles", equal
to the criterion "mobiles" up to case, yet the engine rejects it: the
comparison on line 65 is Python `==`, case-sensitive. -/
theorem c2_counterexample :
    lowerStr prodUpperMobile.category = "mobiles"
      ∧ filter_products [prodUpperMobile] "" "mobiles" 0 999999 = [] := by
  decide

/-- C2, amended: for a non-empty category criterion the category stage
selects exactly the products whose `category` equals the criterion
case-sensitively. -/
theorem c2_category_criterion_amended (c : String) (ps : List Product) (p : Product)
    (hc : c ≠ "") :
    p ∈ categoryStage c ps ↔ p ∈ ps ∧ p.category = c := by
  simp [categoryStage, hc, List.mem_filter]

/-- Witness for `c2_category_criterion_amended` at a concrete input. -/
theorem c2_amended_witness : prodMobileA ∈ categoryStage "mobiles" [prodMobileA] :=
  (c2_category_criterion_amended "mobiles" [prodMobileA] prodMobileA
    (by decide)).mpr (by decide)

/-- C3, counterexample: with every criterion at its default the price
stage still runs, and a product priced 1000000 > 999999 is dropped, so
empty criteria do not return every product "whatever their price". -/
theorem c3_counterexample :
    prodHighPrice.price = 1000000
      ∧ filter_products [prodHighPrice] "" "" 0 999999 = [] := by
  decide

/-- C3, amended: with empty criteria and the default bounds
`min_price = 0`, `max_price = 999999`, the engine returns the input list
unchanged provided every product's price lies within those default
bounds. -/
theorem c3_empty_criteria_identity_amended (ps : List Product)
    (hb : ∀ p ∈ ps, 0 ≤ p.price ∧ p.price ≤ 999999) :
    filter_products ps "" "" 0 999999 = ps := by
  rw [filter_products_eq_filter]
  rw [List.filter_eq_self]
  intro p hp
  simp [passQuery, passCat, passPrice]
  exact hb p hp

/-- Witness for `c3_empty_criteria_identity_amended` at a concrete
input. -/
theorem c3_amended_witness :
    (∀ p ∈ [prodMobileA], 0 ≤ p.price ∧ p.price ≤ 999999)
      ∧ filter_products [prodMobileA] "" "" 0 999999 = [prodMobileA] :=
  ⟨by decide, c3_empty_criteria_identity_amended [prodMobileA] (by decide)⟩

/-- C7: the Filter Engine is pure: the output is a sublist of the input
(so input order is preserved and no element is invented), and identical
inputs give identical outputs.  The embedding is a total function on
immutable lists, which is exactly the no-mutation reading of the Python
code (every stage builds a fresh list comprehension). -/
theorem c7_filter_pure (ps : List Product) (q c : String) (lo hi : Int) :
    List.Sublist (filter_products ps q c lo hi) ps
      ∧ filter_products ps q c lo hi = filter_products ps q c lo hi := by
  refine ⟨?_, rfl⟩
  rw [filter_products_eq_filter]
  exact List.filter_sublist ps

theorem passQuery_empty (p : Product) : passQuery "" p = true := by
  simp [passQuery]

theorem passCat_empty (p : Product) : passCat "" p = true := by
  simp [passCat]

/-- C6, counterexample: combining the text query "alpha" with the price
bound `[0, 2000000]` in one call keeps `prodAlphaTV` (price 1000000),
but applying the query first and the price bound second loses it,
because every `filter_products` call re-applies the default bound
`max_price = 999999`.  So `filter(P, C1 ∩ C2) = filter(filter(P, C1), C2)`
fails as stated. -/
theorem c6_counterexample :
    combine (Crit.query "alpha") (Crit.price 0 2000000) = some ("alpha", "", 0, 2000000)
      ∧ applyCombined ("alpha", "", 0, 2000000) [prodAlphaTV] = [prodAlphaTV]
      ∧ applyCrit (Crit.price 0 2000000) (applyCrit (Crit.query "alpha") [prodAlphaTV]) = [] := by
  decide

/-- C6, amended: for any two criteria that fit in one call (`combine`),
one combined `filter_products` call equals applying the criteria one
after the other, provided every product's price lies within the default
bounds `[0, 999999]` (so that the ever-present default price stage is a
no-op). -/
theorem c6_and_composition_amended (ps : List Product) (c₁ c₂ : Crit)
    (args : String × String × Int × Int) (hc : combine c₁ c₂ = some args)
    (hb : ∀ p ∈ ps, 0 ≤ p.price ∧ p.price ≤ 999999) :
    applyCombined args ps = applyCrit c₂ (applyCrit c₁ ps) := by
  have hdflt : ∀ p ∈ ps, passPrice 0 999999 p = true := by
    intro p hp
    simpa [passPrice] using hb p hp
  cases c₁ with
  | query s₁ =>
    cases c₂ with
    | query s₂ => simp [combine] at hc
    | cat c₂' =>
      simp only [combine, Option.some.injEq] at hc
      subst hc
      simp only [applyCombined, applyCrit]
      rw [filter_products_eq_filter, filter_products_seq]
      apply List.filter_congr
      intro x hx
      rw [hdflt x hx]
      simp [passQuery_empty, passCat_empty]
    | price lo₂ hi₂ =>
      simp only [combine, Option.some.injEq] at hc
      subst hc
      simp only [applyCombined, applyCrit]
      rw [filter_products_eq_filter, filter_products_seq]
      apply List.filter_congr
      intro x hx
      rw [hdflt x hx]
      simp [passQuery_empty, passCat_empty]
  | cat c₁' =>
    cases c₂ with
    | query s₂ =>
      simp only [combine, Option.some.injEq] at hc
      subst hc
      simp only [applyCombined, applyCrit]
      rw [filter_products_eq_filter, filter_products_seq]
      apply List.filter_congr
      intro x hx
      rw [hdflt x hx]
      simp [passQuery_empty, passCat_empty, Bool.and_comm]
    | cat c₂' => simp [combine] at hc
    | price lo₂ hi₂ =>
      simp only [combine, Option.some.injEq] at hc
      subst hc
      simp only [applyCombined, applyCrit]
      rw [filter_products_eq_filter, filter_products_seq]
      apply List.filter_congr
      intro x hx
      rw [hdflt x hx]
      simp [passQuery_empty, passCat_empty]
  | price lo₁ hi₁ =>
    cases c₂ with
    | query s₂ =>
      simp only [combine, Option.some.injEq] at hc
      subst hc
      simp only [applyCombined, applyCrit]
      rw [filter_products_eq_filter, filter_products_seq]
      apply List.filter_congr
      intro x hx
      rw [hdflt x hx]
      simp [passQuery_empty, passCat_empty, Bool.and_comm]
    | cat c₂' =>
      simp only [combine, Option.some.injEq] at hc
      subst hc
      simp only [applyCombined, applyCrit]
      rw [filter_products_eq_filter, filter_products_seq]
      apply List.filter_congr
      intro x hx
      rw [hdflt x hx]
      simp [passQuery_empty, passCat_empty, Bool.and_comm]
    | price lo₂ hi₂ =>
      simp only [combine, Option.some.injEq] at hc
      subst hc
      simp only [applyCombined, applyCrit]
      rw [filter_products_eq_filter, filter_products_seq]
      apply List.filter_congr
      intro x hx
      simp only [passQuery_empty, passCat_empty, Bool.true_and]
      simp only [passPrice, ← Bool.decide_and, decide_eq_decide]
      omega

/-- Witness for `c6_and_composition_amended` at a concrete input. -/
theorem c6_amended_witness :
    combine (Crit.cat "mobiles") (Crit.price 0 20000) = some ("", "mobiles", 0, 20000)
      ∧ (∀ p ∈ [prodMobileA], 0 ≤ p.price ∧ p.price ≤ 999999)
      ∧ applyCombined ("", "mobiles", 0, 20000) [prodMobileA]
          = applyCrit (Crit.price 0 20000) (applyCrit (Crit.cat "mobiles") [prodMobileA]) :=
  ⟨by decide, by decide,
    c6_and_composition_amended [prodMobileA] (Crit.cat "mobiles") (Crit.price 0 20000)
      ("", "mobiles", 0, 20000) (by decide) (by decide)⟩

/-! ## Recommendation lemmas -/

theorem get_recommendations_length_le (tid : Int) (ps : List Product) (limit : Nat) :
    (get_recommendations tid ps limit).length ≤ limit := by
  unfold get_recommendations
  cases hf : ps.find? (fun p => decide (p.id = tid)) with
  | none => simp
  | some cur =>
    simp only []
    split
    · exact List.length_take_le _ _
    · exact List.length_take_le _ _

theorem mem_get_recommendations {tid : Int} {ps : List Product} {limit : Nat} {p : Product}
    (hp : p ∈ get_recommendations tid ps limit) :
    ∃ cur, ps.find? (fun q => decide (q.id = tid)) = some cur
      ∧ p ∈ ps ∧ p.id ≠ tid
      ∧ (p.category = cur.category
          ∨ ((cur.price : ℚ) * (4 / 5) ≤ (p.price : ℚ)
              ∧ (p.price : ℚ) ≤ (cur.price : ℚ) * (6 / 5))) := by
  unfold get_recommendations at hp
  cases hf : ps.find? (fun p => decide (p.id = tid)) with
  | none =>
    rw [hf] at hp
    simp at hp
  | some cur =>
    rw [hf] at hp
    refine ⟨cur, rfl, ?_⟩
    simp only [] at hp
    split at hp
    · have hp' := List.mem_of_mem_take hp
      rw [List.mem_filter] at hp'
      obtain ⟨hmem, hpred⟩ := hp'
      simp at hpred
      exact ⟨hmem, hpred.2, Or.inl hpred.1⟩
    · have hp' := List.mem_of_mem_take hp
      rcases List.mem_append.mp hp' with h₁ | h₂
      · rw [List.mem_filter] at h₁
        obtain ⟨hmem, hpred⟩ := h₁
        simp at hpred
        exact ⟨hmem, hpred.2, Or.inl hpred.1⟩
      · rw [List.mem_filter] at h₂
        obtain ⟨hmem, hpred⟩ := h₂
        simp at hpred
        exact ⟨hmem, hpred.1.2, Or.inr hpred.1.1⟩

/-- C4: `get_recommendations` coincides with the spec's five-step
description `recommendSpec` on every input. -/
theorem c4_recommend_algorithm (tid : Int) (ps : List Product) (limit : Nat) :
    get_recommendations tid ps limit = recommendSpec tid ps limit := by
  unfold get_recommendations recommendSpec
  cases hf : ps.find? (fun p => decide (p.id = tid)) with
  | none => rfl
  | some cur =>
    have hsib : ps.filter (fun p =>
          decide (p.category = cur.category) && !decide (p.id = tid))
        = ps.filter (fun p => decide (p.category = cur.category ∧ p.id ≠ tid)) := by
      apply List.filter_congr
      intro x _
      simp
    simp only [hsib]
    by_cases hlen :
        limit ≤ (ps.filter (fun p => decide (p.category = cur.category ∧ p.id ≠ tid))).length
    · rw [if_pos hlen, if_pos hlen]
    · rw [if_neg hlen, if_neg hlen]
      congr 1
      congr 1
      apply List.filter_congr
      intro x _
      simp [Bool.and_assoc]

/-- C5: a recommendation list never contains the target id and its
length never exceeds `limit`. -/
theorem c5_recommend_exclusion_and_bound (tid : Int) (ps : List Product) (limit : Nat) :
    (get_recommendations tid ps limit).length ≤ limit
      ∧ ∀ p ∈ get_recommendations tid ps limit, p.id ≠ tid := by
  refine ⟨get_recommendations_length_le tid ps limit, ?_⟩
  intro p hp
  obtain ⟨cur, -, -, hne, -⟩ := mem_get_recommendations hp
  exact hne

/-- Witness for `c5_recommend_exclusion_and_bound` at a concrete
input. -/
theorem c5_witness :
    (get_recommendations 1 [prodMobileA, prodMobileB] 1).length ≤ 1
      ∧ prodMobileB.id ≠ 1 :=
  ⟨(c5_recommend_exclusion_and_bound 1 [prodMobileA, prodMobileB] 1).1,
   (c5_recommend_exclusion_and_bound 1 [prodMobileA, prodMobileB] 1).2 prodMobileB (by decide)⟩

/-- C10: every recommended product belongs to the input collection and
either shares the target's category or has its price inside the
inclusive band `[price*0.8, price*1.2]` of the target's price. -/
theorem c10_recommend_membership (tid : Int) (ps : List Product) (limit : Nat)
    (p : Product) (hp : p ∈ get_recommendations tid ps limit) :
    p ∈ ps ∧ ∃ cur, ps.find? (fun q => decide (q.id = tid)) = some cur
      ∧ (p.category = cur.category
          ∨ ((cur.price : ℚ) * (4 / 5) ≤ (p.price : ℚ)
              ∧ (p.price : ℚ) ≤ (cur.price : ℚ) * (6 / 5))) := by
  obtain ⟨cur, hfind, hmem, -, hrel⟩ := mem_get_recommendations hp
  exact ⟨hmem, cur, hfind, hrel⟩

/-- Witness for `c10_recommend_membership` at a concrete input. -/
theorem c10_witness :
    prodMobileB ∈ get_recommendations 1 [prodMobileA, prodMobileB] 1
      ∧ (prodMobileB ∈ [prodMobileA, prodMobileB]
          ∧ ∃ cur, [prodMobileA, prodMobileB].find? (fun q => decide (q.id = 1)) = some cur
            ∧ (prodMobileB.category = cur.category
                ∨ ((cur.price : ℚ) * (4 / 5) ≤ (prodMobileB.price : ℚ)
                    ∧ (prodMobileB.price : ℚ) ≤ (cur.price : ℚ) * (6 / 5)))) :=
  ⟨by decide, c10_recommend_membership 1 [prodMobileA, prodMobileB] 1 prodMobileB (by decide)⟩

/-! ## Data store and id assignment -/

/-- C8, counterexample: an unreadable data file is not handled — the
`except` clause of lines 24-28 catches only `FileNotFoundError` and
`JSONDecodeError`, so the `PermissionError` raised by `open` on an
unreadable file propagates instead of yielding the empty list. -/
theorem c8_counterexample :
    load_products FileState.unreadable = Except.error "PermissionError"
      ∧ load_products FileState.unreadable ≠ Except.ok [] :=
  ⟨rfl, fun h => Except.noConfusion h⟩

/-- C8, amended: `load_products` fails soft on a missing file and on
content that fails to parse as JSON, returning the empty list, and
returns a parsed product list unchanged; an unreadable file's error
propagates. -/
theorem c8_load_fail_soft_amended :
    load_products FileState.missing = Except.ok []
      ∧ load_products FileState.badJson = Except.ok []
      ∧ (∀ ps, load_products (FileState.valid ps) = Except.ok ps)
      ∧ load_products FileState.unreadable = Except.error "PermissionError" :=
  ⟨rfl, rfl, fun _ => rfl, rfl⟩

theorem le_foldl_max_self (a : Int) (l : List Int) : a ≤ l.foldl max a := by
  induction l generalizing a with
  | nil => exact le_refl a
  | cons b t ih =>
    rw [List.foldl_cons]
    exact le_trans (le_max_left a b) (ih (max a b))

theorem le_foldl_max_of_mem : ∀ (l : List Int) (a x : Int), x ∈ l → x ≤ l.foldl max a
  | [], _, _, hx => absurd hx (List.not_mem_nil _)
  | b :: t, a, x, hx => by
    rw [List.foldl_cons]
    rcases List.mem_cons.mp hx with h | h
    · subst h
      exact le_trans (le_max_right a x) (le_foldl_max_self (max a x) t)
    · exact le_foldl_max_of_mem t (max a b) x h

theorem foldl_max_mem (a : Int) (l : List Int) : l.foldl max a = a ∨ l.foldl max a ∈ l := by
  induction l generalizing a with
  | nil => exact Or.inl rfl
  | cons b t ih =>
    rw [List.foldl_cons]
    rcases ih (max a b) with h | h
    · rcases max_choice a b with hm | hm
      · exact Or.inl (by rw [h, hm])
      · exact Or.inr (by rw [h, hm]; exact List.mem_cons_self b t)
    · exact Or.inr (List.mem_cons_of_mem b h)

theorem pythonMax_mem (d : Int) {l : List Int} (h : l ≠ []) : pythonMax d l ∈ l := by
  cases l with
  | nil => exact absurd rfl h
  | cons x xs =>
    show xs.foldl max x ∈ x :: xs
    rcases foldl_max_mem x xs with h₁ | h₁
    · rw [h₁]
      exact List.mem_cons_self x xs
    · exact List.mem_cons_of_mem x h₁

theorem le_pythonMax (d : Int) {l : List Int} {x : Int} (hx : x ∈ l) : x ≤ pythonMax d l := by
  cases l with
  | nil => cases hx
  | cons b t =>
    show x ≤ t.foldl max b
    rcases List.mem_cons.mp hx with h | h
    · subst h
      exact le_foldl_max_self x t
    · exact le_foldl_max_of_mem t b x h

/-- C9: the id of a newly created product is 1 on an empty collection,
is the maximum existing id plus one (maximum meaning: the value
`newProductId ps - 1` is an existing id and bounds every existing id)
on a non-empty one, is strictly greater than every existing id, and
keeps the id list duplicate-free. -/
theorem c9_new_id_assignment (ps : List Product) :
    (ps = [] → newProductId ps = 1)
      ∧ (ps ≠ [] → (newProductId ps - 1) ∈ ps.map Product.id
          ∧ ∀ i ∈ ps.map Product.id, i ≤ newProductId ps - 1)
      ∧ (∀ p ∈ ps, p.id < newProductId ps)
      ∧ ((ps.map Product.id).Nodup → (newProductId ps :: ps.map Product.id).Nodup) := by
  have hd : newProductId ps = pythonMax 0 (ps.map Product.id) + 1 := rfl
  refine ⟨?_, ?_, ?_, ?_⟩
  · intro h
    subst h
    rfl
  · intro h
    have hne : ps.map Product.id ≠ [] := by simpa using h
    have he : newProductId ps - 1 = pythonMax 0 (ps.map Product.id) := by
      rw [hd]
      omega
    refine ⟨?_, ?_⟩
    · rw [he]
      exact pythonMax_mem 0 hne
    · intro i hi
      rw [he]
      exact le_pythonMax 0 hi
  · intro p hp
    have hle : p.id ≤ pythonMax 0 (ps.map Product.id) :=
      le_pythonMax 0 (List.mem_map_of_mem Product.id hp)
    omega
  · intro hnd
    refine List.nodup_cons.mpr ⟨?_, hnd⟩
    intro hmem
    have hle := le_pythonMax 0 hmem
    omega

/-- Witness for `c9_new_id_assignment` at concrete inputs. -/
theorem c9_witness :
    newProductId ([] : List Product) = 1
      ∧ prodMobileA.id < newProductId [prodMobileA, prodMobileB] :=
  ⟨(c9_new_id_assignment []).1 rfl,
   (c9_new_id_assignment [prodMobileA, prodMobileB]).2.2.1 prodMobileA (by decide)⟩
